import Mathlib

/-!
Verification model of the `acp-standard` runtime adapter
(`StandardAcpRuntime`, file `extensions/acp-standard/src/runtime.ts`).

The adapter drives an external agent process speaking line-delimited
JSON-RPC 2.0 over stdio.  The definitions below are a shallow embedding of
the data model and the operations of that file: parsed JSON-RPC messages
are modelled by `JSVal`, the notification mapper, the stdout line handler,
the per-request pending lifecycle of `sendRequest`, the turn engine of
`runTurn` (as a step relation driven by an explicit schedule of
environment actions), and the session registry (`ensureSession`,
`initAgent`, `spawnAgent`, and the process close/error handlers).
-/

/-- Dynamic JavaScript values as they occur after `JSON.parse` plus the
`undefined` value produced by missing-property access. Numbers are
modelled as integers (every number the adapter itself handles is an
integer request id or an error code). -/
inductive JSVal where
  | undef : JSVal
  | null : JSVal
  | bool : Bool → JSVal
  | num : Int → JSVal
  | str : String → JSVal
  | arr : List JSVal → JSVal
  | obj : List (String × JSVal) → JSVal
deriving Repr

/-- Property access `v.k` combined with optional chaining: on objects it
returns the field (or `undefined` when absent), on every non-object it
returns `undefined`. -/
def jget (v : JSVal) (k : String) : JSVal :=
  match v with
  | JSVal.obj fs =>
    match fs.find? (fun p => p.1 = k) with
    | some p => p.2
    | none => JSVal.undef
  | _ => JSVal.undef

/-- The JavaScript `in` operator on objects (`false` on arrays for the
string keys the adapter tests, and unreachable for primitives because the
surrounding `try` swallows the `TypeError`). -/
def jHasKey (v : JSVal) (k : String) : Bool :=
  match v with
  | JSVal.obj fs => fs.any (fun p => p.1 = k)
  | _ => false

/-- JavaScript truthiness, used by `if (!update)` / `if (!params)`. -/
def jsTruthy (v : JSVal) : Bool :=
  match v with
  | JSVal.undef => false
  | JSVal.null => false
  | JSVal.bool b => b
  | JSVal.num n => n ≠ 0
  | JSVal.str s => s ≠ ""
  | _ => true

/-- Whether a value is `null` or `undefined` (the values the loose
comparison `msg.id != null` filters out and the values `??` replaces). -/
def isNullish (v : JSVal) : Bool :=
  match v with
  | JSVal.undef => true
  | JSVal.null => true
  | _ => false

/-- JavaScript string conversion (`String(v)`, template literals). -/
def jsDisplay : JSVal → String
  | JSVal.undef => "undefined"
  | JSVal.null => "null"
  | JSVal.bool b => cond b "true" "false"
  | JSVal.num n => toString n
  | JSVal.str s => s
  | JSVal.obj _ => "[object Object]"
  | JSVal.arr xs =>
    String.intercalate "," (xs.attach.map (fun p => jsDisplay p.1))
decreasing_by
  have h := List.sizeOf_lt_of_mem p.2
  simp only [JSVal.arr.sizeOf_spec]
  omega

/-- The pattern `(v as string) ?? dflt`: the unchecked cast keeps the
value, `??` substitutes the default exactly for `null`/`undefined`; a
non-string value would be rendered when consumed as a string. -/
def asStr (v : JSVal) (dflt : String) : String :=
  match v with
  | JSVal.undef => dflt
  | JSVal.null => dflt
  | JSVal.str s => s
  | v => jsDisplay v

/-- The host event model (`AcpRuntimeEvent`): the tagged variants the turn
engine yields. -/
inductive AcpEvent where
  | text_delta : String → String → AcpEvent
  | tool_call : String → AcpEvent
  | status : String → AcpEvent
  | done : String → AcpEvent
  | error : String → AcpEvent
deriving DecidableEq, Repr

/-- Terminal events: `done` and `error` end a turn. -/
def isTerminalEvent (e : AcpEvent) : Bool :=
  match e with
  | AcpEvent.done _ => true
  | AcpEvent.error _ => true
  | _ => false

/-- `StandardAcpRuntime.mapNotificationToEvent`: translates the
`session/update` params envelope into a host event.  The `switch` on
`update.sessionUpdate` compares with `===`, so only the three exact
string values match; everything else falls to the `default` and is
dropped. -/
def mapNotificationToEvent (params : JSVal) : Option AcpEvent :=
  let update := jget params "update"
  if jsTruthy update then
    match jget update "sessionUpdate" with
    | JSVal.str s =>
      if s = "agent_message_chunk" then
        some (AcpEvent.text_delta (asStr (jget (jget update "content") "text") "") "output")
      else if s = "tool_call" then
        some (AcpEvent.tool_call (asStr (jget update "title") "tool"))
      else if s = "tool_call_update" then
        some (AcpEvent.status
          ("tool " ++ asStr (jget update "toolCallId") "" ++ ": " ++ asStr (jget update "status") ""))
      else none
    | _ => none
  else none

/-- The JSON-RPC error reply the line handler writes for an
agent-initiated request: `Method not supported by this client`, code
`-32601`, echoing the request id. -/
def methodNotSupported (id : JSVal) : JSVal :=
  JSVal.obj
    [("jsonrpc", JSVal.str "2.0"),
     ("id", id),
     ("error", JSVal.obj
        [("code", JSVal.num (-32601)),
         ("message", JSVal.str "Method not supported by this client")])]

/-- Observable outcome of processing one parsed stdout line: what is
written back to the agent's stdin, which pending request id is settled
(`true` = resolved with the result, `false` = rejected), what event is
offered to the notification sink, and the pending ids afterwards. -/
structure LineEffect where
  wrote : List JSVal
  settled : Option (Int × Bool)
  forwarded : Option AcpEvent
  pendingAfter : List Int

/-- The no-op outcome: nothing written, nothing settled, nothing
forwarded, pending untouched. -/
def noEffect (pending : List Int) : LineEffect :=
  { wrote := [], settled := none, forwarded := none, pendingAfter := pending }

/-- The `rl.on("line", ...)` handler of `spawnAgent`, applied to an
already-parsed line (`JSON.parse` failures and property access on
primitive lines are swallowed by the surrounding `try`, giving the no-op
outcome).  A message with a non-null `id` and a `method` is an
agent-initiated request and is answered with `methodNotSupported`; a
message with a non-null `id` and no `method` is a response and settles the
matching pending entry, if any (the pending map is keyed by numbers, so a
non-numeric or unknown id matches nothing); otherwise a
`session/update` notification is mapped and offered to the sink. -/
def handleLine (pending : List Int) (msg : JSVal) : LineEffect :=
  match msg with
  | JSVal.obj _ =>
    if jHasKey msg "id" && !isNullish (jget msg "id") then
      if jHasKey msg "method" then
        { wrote := [methodNotSupported (jget msg "id")], settled := none,
          forwarded := none, pendingAfter := pending }
      else
        match jget msg "id" with
        | JSVal.num n =>
          if n ∈ pending then
            { wrote := [], settled := some (n, !jHasKey msg "error"),
              forwarded := none, pendingAfter := pending.erase n }
          else noEffect pending
        | _ => noEffect pending
    else
      match jget msg "method" with
      | JSVal.str m =>
        if m = "session/update" then
          let params := jget msg "params"
          if jsTruthy params then
            { wrote := [], settled := none,
              forwarded := mapNotificationToEvent params, pendingAfter := pending }
          else noEffect pending
        else noEffect pending
      | _ => noEffect pending
  | _ => noEffect pending

/-- `CONTROL_METHODS`: the methods expected to return quickly. -/
def CONTROL_METHODS : List String :=
  ["initialize", "session/new", "session/cancel", "session/set_mode"]

/-- `CONTROL_TIMEOUT_MS`: timeout for control-plane requests. -/
def CONTROL_TIMEOUT_MS : Nat := 30000

/-- The `timeoutMs` computed by `sendRequest`: 30 000 ms for control
methods, `undefined` otherwise; `if (timeoutMs)` then arms the timer. -/
def requestTimeoutMs (method : String) : Option Nat :=
  if method ∈ CONTROL_METHODS then some CONTROL_TIMEOUT_MS else none

/-- Settlement of the promise returned by `sendRequest`. -/
inductive Settle where
  | resolvedWith : JSVal → Settle
  | rejectedWith : String → Settle

/-- Lifecycle state of one `sendRequest` call: whether its entry is still
in the session's `pending` map, whether its control timer is armed,
whether the stdin write callback has already run with an error, the
promise settlement (JavaScript promises settle at most once; later
resolve/reject calls are absorbed), and counters for pending-map removals
and promise settlements. -/
structure ReqState where
  inPending : Bool
  timerArmed : Bool
  writeDone : Bool
  result : Option Settle
  removeCount : Nat
  settleCount : Nat

/-- First-settlement-wins promise semantics. -/
def settleOnce (s : ReqState) (r : Settle) : ReqState :=
  match s.result with
  | some _ => s
  | none => { s with result := some r, settleCount := s.settleCount + 1 }

/-- `Map.delete` on the pending map: counts only a present-to-absent
transition. -/
def removeEntry (s : ReqState) : ReqState :=
  if s.inPending then { s with inPending := false, removeCount := s.removeCount + 1 }
  else s

/-- Environment triggers that can act on one pending request: a response
line with its id arriving, the control timer firing, the stdin write
callback reporting an error, and the process close / spawn-error handler
draining the pending map. -/
inductive ReqAction where
  | response : Settle → ReqAction
  | timeoutFire : ReqAction
  | writeErr : String → ReqAction
  | procClose : ReqAction

/-- One trigger applied to one request's lifecycle state, following
`sendRequest` and the handlers in `spawnAgent`:
a response is looked up in `pending` and, when found, deleted and settled
through the stored wrapper (which clears the timer); the timer callback
deletes the entry and rejects with a message naming the method; the write
callback (at most one invocation can report an error) clears the timer,
deletes the entry and rejects; the close/error handler rejects every
entry still pending with `agent process exited` and clears the map. -/
def reqStep (method : String) (s : ReqState) (a : ReqAction) : ReqState :=
  match a with
  | ReqAction.response r =>
    if s.inPending then settleOnce (removeEntry { s with timerArmed := false }) r
    else s
  | ReqAction.timeoutFire =>
    if s.timerArmed then
      settleOnce (removeEntry { s with timerArmed := false })
        (Settle.rejectedWith ("JSON-RPC request timed out: " ++ method))
    else s
  | ReqAction.writeErr m =>
    if s.writeDone then s
    else
      settleOnce (removeEntry { s with timerArmed := false, writeDone := true })
        (Settle.rejectedWith m)
  | ReqAction.procClose =>
    if s.inPending then
      settleOnce (removeEntry { s with timerArmed := false })
        (Settle.rejectedWith "agent process exited")
    else s

/-- State right after `sendRequest(method, ...)` registered its pending
entry: the timer is armed exactly for control methods. -/
def sendRequestState (method : String) : ReqState :=
  { inPending := true
    timerArmed := (requestTimeoutMs method).isSome
    writeDone := false
    result := none
    removeCount := 0
    settleCount := 0 }

/-- Run a request's lifecycle under a schedule of triggers. -/
def runReq (method : String) (sched : List ReqAction) : ReqState :=
  sched.foldl (reqStep method) (sendRequestState method)

/-- Triggers other than the timer. -/
def nonTimerTrigger (a : ReqAction) : Bool :=
  match a with
  | ReqAction.timeoutFire => false
  | _ => true

/-- Environment actions interleaved with one `runTurn` invocation:
a `session/update` notification arriving (its params), the
`session/prompt` promise resolving (its result) or rejecting (its
stringified error), the child's `close` event, the cancellation signal
firing, and the consumer pulling one iteration of the event-pump loop. -/
inductive TurnAction where
  | notify : JSVal → TurnAction
  | promptResolve : JSVal → TurnAction
  | promptReject : String → TurnAction
  | procExit : TurnAction
  | abortSignal : TurnAction
  | consume : TurnAction

/-- State of one `runTurn` invocation: the local FIFO `events` buffer, the
events yielded so far, the `done` flag of the pump loop, and the methods
of the requests sent to the agent during the turn. -/
structure TurnState where
  buffer : List AcpEvent
  yielded : List AcpEvent
  turnDone : Bool
  sent : List String
deriving DecidableEq, Repr

/-- One interleaved step of `runTurn`'s handlers and pump loop:
the notification sink appends each mapped event unconditionally; the
prompt completion handlers append `done{stopReason ?? "end_turn"}` or an
`error` unless the turn is done; the close hook appends
`error{agent process exited unexpectedly}` unless done; the abort hook
fires `session/cancel` and appends `done{cancelled}` unless done; the
pump loop shifts the first buffered event, yields it, and marks the turn
done when that event is terminal. -/
def turnStep (s : TurnState) (a : TurnAction) : TurnState :=
  match a with
  | TurnAction.notify p =>
    match mapNotificationToEvent p with
    | some e => { s with buffer := s.buffer ++ [e] }
    | none => s
  | TurnAction.promptResolve r =>
    if s.turnDone then s
    else { s with buffer := s.buffer ++ [AcpEvent.done (asStr (jget r "stopReason") "end_turn")] }
  | TurnAction.promptReject m =>
    if s.turnDone then s
    else { s with buffer := s.buffer ++ [AcpEvent.error m] }
  | TurnAction.procExit =>
    if s.turnDone then s
    else { s with buffer := s.buffer ++ [AcpEvent.error "agent process exited unexpectedly"] }
  | TurnAction.abortSignal =>
    let s1 := { s with sent := s.sent ++ ["session/cancel"] }
    if s1.turnDone then s1
    else { s1 with buffer := s1.buffer ++ [AcpEvent.done "cancelled"] }
  | TurnAction.consume =>
    if s.turnDone then s
    else
      match s.buffer with
      | [] => s
      | e :: rest =>
        { s with buffer := rest, yielded := s.yielded ++ [e], turnDone := isTerminalEvent e }

/-- State at the start of a (non-pre-aborted) turn: empty buffer, nothing
yielded, and the `session/prompt` request already sent. -/
def initialTurnState : TurnState :=
  { buffer := [], yielded := [], turnDone := false, sent := ["session/prompt"] }

/-- Run the turn machinery under a schedule of environment actions. -/
def runTurnSteps (sched : List TurnAction) : TurnState :=
  sched.foldl turnStep initialTurnState

/-- The state a pre-aborted `runTurn` ends in: it yields the single
`done{cancelled}` event and sends nothing. -/
def preAbortedTurnState : TurnState :=
  { buffer := [], yielded := [AcpEvent.done "cancelled"], turnDone := true, sent := [] }

/-- `StandardAcpRuntime.runTurn`: if the cancellation signal is already
aborted the turn short-circuits before looking up the agent or sending
anything; otherwise, with no agent process registered for the session key
it throws `ACP_TURN_FAILED` (`none`); otherwise the turn runs under the
given schedule. -/
def runTurnExec (aborted : Bool) (agentExists : Bool) (sched : List TurnAction) :
    Option TurnState :=
  if aborted then some preAbortedTurnState
  else if agentExists then some (runTurnSteps sched) else none

/-- The event, if any, that an environment action feeds through the
notification mapper. -/
def actionEvent (a : TurnAction) : Option AcpEvent :=
  match a with
  | TurnAction.notify p => mapNotificationToEvent p
  | _ => none

/-- The events the notification mapper produces over a schedule, in
arrival order. -/
def mapperOutputs (sched : List TurnAction) : List AcpEvent :=
  sched.filterMap actionEvent

/-- `ResolvedStandardAcpConfig`: the resolved plugin configuration. -/
structure ResolvedStandardAcpConfig where
  command : String
  args : List String
  cwd : String
  env : List (String × String)
deriving DecidableEq, Repr

/-- `AcpRuntimeEnsureInput`, restricted to the fields `ensureSession`
reads. -/
structure EnsureInput where
  sessionKey : String
  cwd : Option String
deriving DecidableEq, Repr

/-- The backend id constant. -/
def STANDARD_ACP_BACKEND_ID : String := "acp-standard"

/-- `AcpRuntimeHandle`: the opaque handle returned to the host. -/
structure AcpHandle where
  sessionKey : String
  backend : String
  runtimeSessionName : String
  cwd : String
deriving DecidableEq, Repr

/-- The `AgentProcess` record of one spawned child.  `pid` models the
object identity of the record (the `===` comparison in the close/error
handlers); `spawnedCwd` is the working directory the OS process was
started with; `cwd` is the record's mutable `cwd` field; `pending` holds
the ids of the outstanding requests. -/
structure AgentRec where
  pid : Nat
  spawnedCwd : String
  cwd : String
  sessionId : Option String
  pending : List Int
deriving DecidableEq, Repr

/-- The runtime's registry state: the `agents` map (session key to live
record), a counter producing fresh record identities, and the pids that
have been sent SIGTERM. -/
structure RegState where
  agents : List (String × AgentRec)
  nextPid : Nat
  killed : List Nat
deriving DecidableEq, Repr

/-- `Map.get` on the registry. -/
def regGet (agents : List (String × AgentRec)) (k : String) : Option AgentRec :=
  match agents.find? (fun p => p.1 = k) with
  | some p => some p.2
  | none => none

/-- `Map.delete` on the registry. -/
def regErase (agents : List (String × AgentRec)) (k : String) : List (String × AgentRec) :=
  agents.filter (fun p => p.1 ≠ k)

/-- `Map.set` on the registry. -/
def regSet (agents : List (String × AgentRec)) (k : String) (v : AgentRec) :
    List (String × AgentRec) :=
  (k, v) :: regErase agents k

/-- The empty registry state. -/
def regEmpty : RegState := { agents := [], nextPid := 0, killed := [] }

/-- The effective working directory of an `ensureSession` call:
`input.cwd ?? config.cwd`. -/
def effectiveCwd (cfg : ResolvedStandardAcpConfig) (input : EnsureInput) : String :=
  input.cwd.getD cfg.cwd

/-- `StandardAcpRuntime.spawnAgent`: the child is spawned with
`cwd: this.config.cwd`, and the fresh record starts with
`cwd = this.config.cwd`, no session id and an empty pending map. -/
def spawnAgent (cfg : ResolvedStandardAcpConfig) (pid : Nat) : AgentRec :=
  { pid := pid, spawnedCwd := cfg.cwd, cwd := cfg.cwd, sessionId := none, pending := [] }

/-- Outcome of the `initialize` / `session/new` handshake, decided by the
agent: `initialize` rejecting, `session/new` rejecting, or `session/new`
resolving with a result object. -/
inductive InitOutcome where
  | initErr : String → InitOutcome
  | newErr : String → InitOutcome
  | newOk : JSVal → InitOutcome

/-- `StandardAcpRuntime.initAgent`: spawn, register under the key, run the
handshake; on success record `sessionId = result.sessionId ?? key` and
`cwd = input.cwd ?? config.cwd` and return the handle; on failure of
either step SIGTERM the child, delete the registry entry and propagate
the error. -/
def initAgent (cfg : ResolvedStandardAcpConfig) (key : String) (input : EnsureInput)
    (out : InitOutcome) (st : RegState) : RegState × Except String AcpHandle :=
  let agent := spawnAgent cfg st.nextPid
  let st1 : RegState :=
    { st with nextPid := st.nextPid + 1, agents := regSet st.agents key agent }
  match out with
  | InitOutcome.initErr e =>
    ({ st1 with agents := regErase st1.agents key, killed := st1.killed ++ [agent.pid] },
     Except.error e)
  | InitOutcome.newErr e =>
    ({ st1 with agents := regErase st1.agents key, killed := st1.killed ++ [agent.pid] },
     Except.error e)
  | InitOutcome.newOk res =>
    let sid := asStr (jget res "sessionId") key
    let agent1 := { agent with sessionId := some sid, cwd := effectiveCwd cfg input }
    ({ st1 with agents := regSet st1.agents key agent1 },
     Except.ok
       { sessionKey := key, backend := STANDARD_ACP_BACKEND_ID,
         runtimeSessionName := sid, cwd := effectiveCwd cfg input })

/-- `StandardAcpRuntime.ensureSession` (sequential semantics; the
`initializing` in-flight map only deduplicates concurrent calls): an
existing session with matching `cwd` is returned as a handle without
spawning; an existing session with a different `cwd` is SIGTERMed,
removed, and re-initialized; an absent key is freshly initialized. -/
def ensureSession (cfg : ResolvedStandardAcpConfig) (input : EnsureInput)
    (out : InitOutcome) (st : RegState) : RegState × Except String AcpHandle :=
  match regGet st.agents input.sessionKey with
  | some agent =>
    if agent.cwd ≠ effectiveCwd cfg input then
      initAgent cfg input.sessionKey input out
        { st with agents := regErase st.agents input.sessionKey,
                  killed := st.killed ++ [agent.pid] }
    else
      (st,
       Except.ok
         { sessionKey := input.sessionKey, backend := STANDARD_ACP_BACKEND_ID,
           runtimeSessionName := agent.sessionId.getD input.sessionKey,
           cwd := effectiveCwd cfg input })
  | none => initAgent cfg input.sessionKey input out st

/-- The child `close` handler registered by `spawnAgent` (the spawn
`error` handler performs the same pending drain and conditional
unregistration): reject every completion still pending on the captured
record, clear its pending map, and delete the registry entry only when
the registry still maps the key to that same record
(`this.agents.get(key) === agent`).  Returns the new registry state, the
captured record after the drain, and the ids whose completions were
rejected. -/
def onProcessClose (key : String) (agent : AgentRec) (st : RegState) :
    RegState × AgentRec × List Int :=
  let rejected := agent.pending
  let agent1 := { agent with pending := ([] : List Int) }
  let agents1 :=
    match regGet st.agents key with
    | some a => if a.pid = agent.pid then regErase st.agents key else st.agents
    | none => st.agents
  ({ st with agents := agents1 }, agent1, rejected)

/-- No event in the list is terminal. -/
def noTerm (l : List AcpEvent) : Prop := ∀ e ∈ l, isTerminalEvent e = false

/-- Invariant of the turn machine relative to the mapper outputs `ms` of
the schedule so far: once the pump loop is done, the yielded sequence is
some mapper-produced (hence non-terminal) events followed by exactly one
terminal event; before that, nothing yielded is terminal and the buffer
is either all mapper outputs or contains a first terminal event behind a
non-terminal mapper-produced prefix. -/
def TurnInv (ms : List AcpEvent) (s : TurnState) : Prop :=
  (s.turnDone = true →
     ∃ pre t, s.yielded = pre ++ [t] ∧ isTerminalEvent t = true ∧ noTerm pre ∧
       ∃ suf, ms = pre ++ suf) ∧
  (s.turnDone = false →
     noTerm s.yielded ∧
     ((noTerm s.buffer ∧ s.yielded ++ s.buffer = ms) ∨
      (∃ bp t bs, s.buffer = bp ++ t :: bs ∧ noTerm bp ∧ isTerminalEvent t = true ∧
         ∃ suf, ms = (s.yielded ++ bp) ++ suf)))

/-- Invariant of one request's lifecycle: while the entry is pending the
promise is unsettled and no removal has happened; once it is no longer
pending it was removed exactly once and settled exactly once; the timer
is armed only while the entry is pending. -/
def ReqInv (s : ReqState) : Prop :=
  (s.timerArmed = true → s.inPending = true) ∧
  (s.inPending = true → s.result = none ∧ s.removeCount = 0 ∧ s.settleCount = 0) ∧
  (s.inPending = false → s.removeCount = 1 ∧ s.settleCount = 1 ∧ s.result ≠ none)

/-- Concrete configuration with `cwd = "/cfg"`. -/
def cfgA : ResolvedStandardAcpConfig :=
  { command := "kiro-cli", args := ["acp"], cwd := "/cfg", env := [] }

/-- Concrete `ensureSession` input requesting the per-session working
directory `"/turn"`. -/
def inputA : EnsureInput := { sessionKey := "k", cwd := some "/turn" }

/-- Concrete `session/new` result `{sessionId: "sid-1"}`. -/
def resA : JSVal := JSVal.obj [("sessionId", JSVal.str "sid-1")]

/-- The notification mapper never produces a terminal event. -/
theorem mapNotification_not_terminal (p : JSVal) (e : AcpEvent)
    (h : mapNotificationToEvent p = some e) : isTerminalEvent e = false := by
  simp only [mapNotificationToEvent] at h
  split at h
  · split at h
    · split_ifs at h <;> cases h <;> rfl
    · exact absurd h (by simp)
  · exact absurd h (by simp)

/-- Deleting a key makes lookup of that key fail. -/
theorem regGet_erase (l : List (String × AgentRec)) (k : String) :
    regGet (regErase l k) k = none := by
  induction l with
  | nil => rfl
  | cons p l ih =>
    by_cases hp : p.1 = k
    · simpa [regErase, List.filter_cons, hp] using ih
    · simpa [regErase, regGet, List.filter_cons, hp, List.find?] using ih

/-- Setting a key makes lookup of that key return the value. -/
theorem regGet_set (l : List (String × AgentRec)) (k : String) (v : AgentRec) :
    regGet (regSet l k v) k = some v := by
  simp [regGet, regSet, List.find?]

/-- Pushing a terminal event onto the buffer of a not-yet-done turn
preserves the invariant. -/
theorem turnInv_push_terminal (ms : List AcpEvent) (s : TurnState) (t : AcpEvent)
    (htd : s.turnDone = false) (ht : isTerminalEvent t = true) (h : TurnInv ms s) :
    TurnInv ms { s with buffer := s.buffer ++ [t] } := by
  obtain ⟨_, hrun⟩ := h
  constructor
  · intro hd
    have hcontr : s.turnDone = true := hd
    rw [htd] at hcontr
    exact Bool.noConfusion hcontr
  · intro _
    obtain ⟨hny, hdisj⟩ := hrun htd
    refine ⟨hny, Or.inr ?_⟩
    rcases hdisj with ⟨hnb, heq⟩ | ⟨bp, t2, bs, hb, hnbp, htt, suf, hms⟩
    · exact ⟨s.buffer, t, [], rfl, hnb, ht, [], by rw [List.append_nil]; exact heq.symm⟩
    · refine ⟨bp, t2, bs ++ [t], ?_, hnbp, htt, suf, hms⟩
      show s.buffer ++ [t] = bp ++ t2 :: (bs ++ [t])
      rw [hb]
      simp

/-- One environment/consumer step preserves the turn invariant, with the
mapper outputs extended by whatever the step fed through the mapper. -/
theorem turnInv_step (ms : List AcpEvent) (s : TurnState) (a : TurnAction)
    (h : TurnInv ms s) : TurnInv (ms ++ (actionEvent a).toList) (turnStep s a) := by
  obtain ⟨hdone, hrun⟩ := h
  cases a with
  | notify p =>
    cases he : mapNotificationToEvent p with
    | none =>
      simp only [turnStep, he, actionEvent, Option.toList, List.append_nil]
      exact ⟨hdone, hrun⟩
    | some e =>
      have hent : isTerminalEvent e = false := mapNotification_not_terminal p e he
      simp only [turnStep, he, actionEvent, Option.toList]
      constructor
      · intro hd
        obtain ⟨pre, t, hy, ht, hnt, suf, hms⟩ := hdone hd
        exact ⟨pre, t, hy, ht, hnt, suf ++ [e], by rw [hms, List.append_assoc]⟩
      · intro hd
        obtain ⟨hny, hdisj⟩ := hrun hd
        refine ⟨hny, ?_⟩
        rcases hdisj with ⟨hnb, heq⟩ | ⟨bp, t, bs, hb, hnbp, htt, suf, hms⟩
        · left
          refine ⟨?_, ?_⟩
          · intro x hx
            rcases List.mem_append.mp hx with hx | hx
            · exact hnb x hx
            · have hxe : x = e := List.mem_singleton.mp hx
              rw [hxe]
              exact hent
          · show s.yielded ++ (s.buffer ++ [e]) = ms ++ [e]
            rw [← List.append_assoc, heq]
        · right
          refine ⟨bp, t, bs ++ [e], ?_, hnbp, htt, suf ++ [e], ?_⟩
          · show s.buffer ++ [e] = bp ++ t :: (bs ++ [e])
            rw [hb]
            simp
          · show ms ++ [e] = (s.yielded ++ bp) ++ (suf ++ [e])
            rw [hms, List.append_assoc, List.append_assoc]
  | promptResolve r =>
    simp only [actionEvent, Option.toList, List.append_nil]
    cases htd : s.turnDone with
    | true => simpa only [turnStep, htd, if_true] using ⟨hdone, hrun⟩
    | false =>
      simpa only [turnStep, htd, Bool.false_eq_true, if_false] using
        turnInv_push_terminal ms s
          (AcpEvent.done (asStr (jget r "stopReason") "end_turn")) htd rfl ⟨hdone, hrun⟩
  | promptReject m =>
    simp only [actionEvent, Option.toList, List.append_nil]
    cases htd : s.turnDone with
    | true => simpa only [turnStep, htd, if_true] using ⟨hdone, hrun⟩
    | false =>
      simpa only [turnStep, htd, Bool.false_eq_true, if_false] using
        turnInv_push_terminal ms s (AcpEvent.error m) htd rfl ⟨hdone, hrun⟩
  | procExit =>
    simp only [actionEvent, Option.toList, List.append_nil]
    cases htd : s.turnDone with
    | true => simpa only [turnStep, htd, if_true] using ⟨hdone, hrun⟩
    | false =>
      simpa only [turnStep, htd, Bool.false_eq_true, if_false] using
        turnInv_push_terminal ms s (AcpEvent.error "agent process exited unexpectedly")
          htd rfl ⟨hdone, hrun⟩
  | abortSignal =>
    simp only [actionEvent, Option.toList, List.append_nil]
    have hsent : TurnInv ms { s with sent := s.sent ++ ["session/cancel"] } := ⟨hdone, hrun⟩
    cases htd : s.turnDone with
    | true => simpa only [turnStep, htd, if_true] using hsent
    | false =>
      have := turnInv_push_terminal ms { s with sent := s.sent ++ ["session/cancel"] }
        (AcpEvent.done "cancelled") htd rfl hsent
      simpa only [turnStep, htd, Bool.false_eq_true, if_false] using this
  | consume =>
    simp only [actionEvent, Option.toList, List.append_nil]
    cases htd : s.turnDone with
    | true => simpa only [turnStep, htd, if_true] using ⟨hdone, hrun⟩
    | false =>
      obtain ⟨hny, hdisj⟩ := hrun htd
      cases hbuf : s.buffer with
      | nil =>
        simp only [turnStep, htd, Bool.false_eq_true, if_false, hbuf]
        exact ⟨hdone, hrun⟩
      | cons e rest =>
        simp only [turnStep, htd, Bool.false_eq_true, if_false, hbuf]
        rcases hdisj with ⟨hnb, heq⟩ | ⟨bp, t, bs, hb, hnbp, htt, suf, hms⟩
        · have het : isTerminalEvent e = false := by
            apply hnb
            rw [hbuf]
            exact List.mem_cons_self e rest
          constructor
          · intro hd
            have hc : isTerminalEvent e = true := hd
            rw [het] at hc
            exact Bool.noConfusion hc
          · intro _
            refine ⟨?_, Or.inl ⟨?_, ?_⟩⟩
            · intro x hx
              rcases List.mem_append.mp hx with hx | hx
              · exact hny x hx
              · have hxe : x = e := List.mem_singleton.mp hx
                rw [hxe]; exact het
            · intro x hx
              apply hnb
              rw [hbuf]
              exact List.mem_cons_of_mem e hx
            · show (s.yielded ++ [e]) ++ rest = ms
              rw [List.append_assoc]
              rw [hbuf] at heq
              simpa using heq
        · rw [hbuf] at hb
          cases bp with
          | nil =>
            simp only [List.nil_append] at hb
            obtain ⟨rfl, rfl⟩ : e = t ∧ rest = bs := by
              exact ⟨(List.cons.injEq _ _ _ _ ▸ hb).1, (List.cons.injEq _ _ _ _ ▸ hb).2⟩
            constructor
            · intro _
              refine ⟨s.yielded, e, rfl, htt, hny, suf, ?_⟩
              simpa using hms
            · intro hd
              have hc : isTerminalEvent e = false := hd
              rw [htt] at hc
              exact Bool.noConfusion hc
          | cons e0 bp2 =>
            simp only [List.cons_append] at hb
            obtain ⟨rfl, rfl⟩ : e = e0 ∧ rest = bp2 ++ t :: bs := by
              exact ⟨(List.cons.injEq _ _ _ _ ▸ hb).1, (List.cons.injEq _ _ _ _ ▸ hb).2⟩
            have he0 : isTerminalEvent e = false := hnbp e (List.mem_cons_self _ _)
            constructor
            · intro hd
              have hc : isTerminalEvent e = true := hd
              rw [he0] at hc
              exact Bool.noConfusion hc
            · intro _
              refine ⟨?_, Or.inr ⟨bp2, t, bs, rfl, ?_, htt, suf, ?_⟩⟩
              · intro x hx
                rcases List.mem_append.mp hx with hx | hx
                · exact hny x hx
                · have hxe : x = e := List.mem_singleton.mp hx
                  rw [hxe]; exact he0
              · intro x hx
                exact hnbp x (List.mem_cons_of_mem _ hx)
              · show ms = ((s.yielded ++ [e]) ++ bp2) ++ suf
                rw [hms]
                rw [List.append_assoc (s.yielded) [e] bp2]
                rfl

/-- Mapper outputs of a schedule decompose action by action. -/
theorem mapperOutputs_cons (a : TurnAction) (l : List TurnAction) :
    mapperOutputs (a :: l) = (actionEvent a).toList ++ mapperOutputs l := by
  cases h : actionEvent a <;> simp [mapperOutputs, List.filterMap_cons, h]

/-- The initial turn state satisfies the invariant. -/
theorem turnInv_init : TurnInv [] initialTurnState := by
  constructor
  · intro hd
    exact Bool.noConfusion hd
  · intro _
    refine ⟨?_, Or.inl ⟨?_, rfl⟩⟩
    · intro e he
      exact absurd he (List.not_mem_nil e)
    · intro e he
      exact absurd he (List.not_mem_nil e)

/-- Folding any schedule from an invariant state lands in an invariant
state. -/
theorem turnInv_foldl (sched : List TurnAction) :
    ∀ (ms : List AcpEvent) (s : TurnState), TurnInv ms s →
      TurnInv (ms ++ mapperOutputs sched) (sched.foldl turnStep s) := by
  induction sched with
  | nil =>
    intro ms s h
    simpa [mapperOutputs] using h
  | cons a l ih =>
    intro ms s h
    have h2 := ih (ms ++ (actionEvent a).toList) (turnStep s a) (turnInv_step ms s a h)
    simpa [mapperOutputs_cons, List.append_assoc] using h2

/-- Any complete run of the turn machine satisfies the invariant. -/
theorem turnInv_run (sched : List TurnAction) :
    TurnInv (mapperOutputs sched) (runTurnSteps sched) := by
  simpa using turnInv_foldl sched [] initialTurnState turnInv_init

/-- C1: for every invocation of `runTurn`, the sequence of events it
yields contains exactly one terminal event (`done` or `error`), that
terminal event is the last element of the sequence, and all preceding
events are yielded in the order the notification mapper produced them;
this holds under any combination of agent responses, notifications,
cancellation, and process exit (any schedule under which the turn
completes). -/
theorem runTurn_single_terminal (aborted agentExists : Bool) (sched : List TurnAction)
    (st : TurnState) (hrun : runTurnExec aborted agentExists sched = some st)
    (hdone : st.turnDone = true) :
    ∃ pre t, st.yielded = pre ++ [t] ∧ isTerminalEvent t = true ∧ noTerm pre ∧
      ∃ suf, mapperOutputs sched = pre ++ suf := by
  unfold runTurnExec at hrun
  cases aborted with
  | true =>
    simp only [if_true] at hrun
    cases hrun
    exact ⟨[], AcpEvent.done "cancelled", rfl, rfl, fun e he => absurd he (List.not_mem_nil e),
      mapperOutputs sched, rfl⟩
  | false =>
    cases agentExists with
    | true =>
      simp only [if_true, Bool.false_eq_true, if_false] at hrun
      cases hrun
      exact (turnInv_run sched).1 hdone
    | false =>
      simp only [Bool.false_eq_true, if_false] at hrun
      exact Option.noConfusion hrun

/-- Witness for C1: a concrete completed turn (prompt resolves with an
empty result, consumer pulls once) yields exactly
`[done{end_turn}]`. -/
theorem runTurn_single_terminal_witness :
    ∃ pre t,
      ({ buffer := [], yielded := [AcpEvent.done "end_turn"], turnDone := true,
         sent := ["session/prompt"] } : TurnState).yielded = pre ++ [t] ∧
      isTerminalEvent t = true ∧ noTerm pre ∧
      ∃ suf,
        mapperOutputs [TurnAction.promptResolve (JSVal.obj []), TurnAction.consume] =
          pre ++ suf :=
  runTurn_single_terminal false true
    [TurnAction.promptResolve (JSVal.obj []), TurnAction.consume]
    { buffer := [], yielded := [AcpEvent.done "end_turn"], turnDone := true,
      sent := ["session/prompt"] }
    (by rfl) (by rfl)

/-- C3: if the cancellation signal is already aborted when the turn
starts, `runTurn` yields exactly the one-element sequence
`[done{stopReason: "cancelled"}]` and sends no request to the agent
(regardless of whether an agent process exists and of any schedule). -/
theorem runTurn_preaborted (agentExists : Bool) (sched : List TurnAction) :
    ∃ st, runTurnExec true agentExists sched = some st ∧
      st.yielded = [AcpEvent.done "cancelled"] ∧ st.sent = [] ∧ st.turnDone = true :=
  ⟨preAbortedTurnState, rfl, rfl, rfl, rfl⟩

/-- C4: for every `session/update` params object (with a truthy `update`
field), the notification mapper selects on `update.sessionUpdate` and
returns: for `agent_message_chunk` a `text_delta` event with
`text = update.content.text` (empty string when missing) and
`stream = "output"`; for `tool_call` a `tool_call` event with
`text = update.title` (falling back to `"tool"`); for `tool_call_update`
a `status` event with text `"tool " + update.toolCallId + ": " +
update.status`; and `null` (dropping the notification) for any other or
missing `sessionUpdate` value. -/
theorem mapNotification_spec (params : JSVal)
    (htru : jsTruthy (jget params "update") = true) :
    (∀ s : String,
       jget (jget params "update") "sessionUpdate" = JSVal.str "agent_message_chunk" →
       jget (jget (jget params "update") "content") "text" = JSVal.str s →
       mapNotificationToEvent params = some (AcpEvent.text_delta s "output")) ∧
    (jget (jget params "update") "sessionUpdate" = JSVal.str "agent_message_chunk" →
       (jget (jget (jget params "update") "content") "text" = JSVal.undef ∨
        jget (jget (jget params "update") "content") "text" = JSVal.null) →
       mapNotificationToEvent params = some (AcpEvent.text_delta "" "output")) ∧
    (∀ t : String,
       jget (jget params "update") "sessionUpdate" = JSVal.str "tool_call" →
       jget (jget params "update") "title" = JSVal.str t →
       mapNotificationToEvent params = some (AcpEvent.tool_call t)) ∧
    (jget (jget params "update") "sessionUpdate" = JSVal.str "tool_call" →
       (jget (jget params "update") "title" = JSVal.undef ∨
        jget (jget params "update") "title" = JSVal.null) →
       mapNotificationToEvent params = some (AcpEvent.tool_call "tool")) ∧
    (∀ tc ts : String,
       jget (jget params "update") "sessionUpdate" = JSVal.str "tool_call_update" →
       jget (jget params "update") "toolCallId" = JSVal.str tc →
       jget (jget params "update") "status" = JSVal.str ts →
       mapNotificationToEvent params = some (AcpEvent.status ("tool " ++ tc ++ ": " ++ ts))) ∧
    (∀ k : JSVal,
       jget (jget params "update") "sessionUpdate" = k →
       k ≠ JSVal.str "agent_message_chunk" → k ≠ JSVal.str "tool_call" →
       k ≠ JSVal.str "tool_call_update" →
       mapNotificationToEvent params = none) := by
  refine ⟨?_, ?_, ?_, ?_, ?_, ?_⟩
  · intro s hk htext
    simp [mapNotificationToEvent, htru, hk, htext, asStr]
  · intro hk hmiss
    rcases hmiss with hm | hm <;> simp [mapNotificationToEvent, htru, hk, hm, asStr]
  · intro t hk htitle
    simp [mapNotificationToEvent, htru, hk, htitle, asStr]
  · intro hk hmiss
    rcases hmiss with hm | hm <;> simp [mapNotificationToEvent, htru, hk, hm, asStr]
  · intro tc ts hk hid hst
    simp [mapNotificationToEvent, htru, hk, hid, hst, asStr]
  · intro k hk h1 h2 h3
    cases k with
    | str s =>
      have hs1 : ¬ s = "agent_message_chunk" := fun h => h1 (by rw [h])
      have hs2 : ¬ s = "tool_call" := fun h => h2 (by rw [h])
      have hs3 : ¬ s = "tool_call_update" := fun h => h3 (by rw [h])
      simp [mapNotificationToEvent, htru, hk, hs1, hs2, hs3]
    | undef => simp [mapNotificationToEvent, htru, hk]
    | null => simp [mapNotificationToEvent, htru, hk]
    | bool b => simp [mapNotificationToEvent, htru, hk]
    | num n => simp [mapNotificationToEvent, htru, hk]
    | arr xs => simp [mapNotificationToEvent, htru, hk]
    | obj fs => simp [mapNotificationToEvent, htru, hk]

/-- Witness for C4: a concrete `tool_call` notification maps to the
`tool_call` event carrying its title. -/
theorem mapNotification_spec_witness :
    mapNotificationToEvent (JSVal.obj [("update", JSVal.obj
      [("sessionUpdate", JSVal.str "tool_call"), ("title", JSVal.str "Search")])]) =
      some (AcpEvent.tool_call "Search") :=
  ((mapNotification_spec _ (by rfl)).2.2.1) "Search" (by rfl) (by rfl)

/-- C6: for every parsed stdout line that is a JSON object with a
non-null `id` and a `method` field, the transport writes back exactly
`{jsonrpc: "2.0", id, error: {code: -32601, message: "Method not
supported by this client"}}` and never forwards that message to the
notification sink; and for every incoming response whose id matches no
pending entry, the message is ignored without any effect on session
state (nothing written, nothing settled, nothing forwarded, pending
untouched). -/
theorem handleLine_spec (pending : List Int) (msg : JSVal) :
    (∀ fs, msg = JSVal.obj fs →
       jHasKey msg "id" = true → isNullish (jget msg "id") = false →
       jHasKey msg "method" = true →
       handleLine pending msg =
         { wrote := [methodNotSupported (jget msg "id")], settled := none,
           forwarded := none, pendingAfter := pending }) ∧
    (∀ fs, msg = JSVal.obj fs →
       jHasKey msg "id" = true → isNullish (jget msg "id") = false →
       jHasKey msg "method" = false →
       (∀ n : Int, jget msg "id" = JSVal.num n → n ∉ pending) →
       handleLine pending msg = noEffect pending) := by
  constructor
  · intro fs hfs hid hnn hm
    subst hfs
    simp [handleLine, hid, hnn, hm]
  · intro fs hfs hid hnn hm hnone
    subst hfs
    cases hv : jget (JSVal.obj fs) "id" with
    | num n =>
      have hn : n ∉ pending := hnone n hv
      simp_all [handleLine, isNullish]
    | undef => simp_all [handleLine, isNullish]
    | null => simp_all [handleLine, isNullish]
    | bool b => simp_all [handleLine, isNullish]
    | str s => simp_all [handleLine, isNullish]
    | arr xs => simp_all [handleLine, isNullish]
    | obj fs2 => simp_all [handleLine, isNullish]

/-- Witness for C6: a concrete response with unknown id `7` against
pending `[1, 2]` has no effect. -/
theorem handleLine_spec_witness :
    handleLine [1, 2]
      (JSVal.obj [("jsonrpc", JSVal.str "2.0"), ("id", JSVal.num 7),
                  ("result", JSVal.obj [])]) = noEffect [1, 2] :=
  (handleLine_spec [1, 2] _).2 _ rfl rfl rfl rfl (by
    intro n hn
    simp only [jget, List.find?] at hn
    cases hn
    decide)

/-- The freshly registered pending entry satisfies the lifecycle
invariant. -/
theorem reqInv_init (m : String) : ReqInv (sendRequestState m) := by
  refine ⟨fun _ => rfl, fun _ => ⟨rfl, rfl, rfl⟩, fun h => ?_⟩
  exact Bool.noConfusion h

/-- Every trigger preserves the request lifecycle invariant. -/
theorem reqInv_step (m : String) (s : ReqState) (a : ReqAction) (h : ReqInv s) :
    ReqInv (reqStep m s a) := by
  obtain ⟨h1, h2, h3⟩ := h
  cases a with
  | response r =>
    by_cases hp : s.inPending = true
    · obtain ⟨hr, hrc, hsc⟩ := h2 hp
      simp [reqStep, hp, removeEntry, settleOnce, hr, hrc, hsc, ReqInv]
    · simp only [reqStep, hp, if_false]
      exact ⟨h1, h2, h3⟩
  | timeoutFire =>
    by_cases ht : s.timerArmed = true
    · have hp := h1 ht
      obtain ⟨hr, hrc, hsc⟩ := h2 hp
      simp [reqStep, ht, hp, removeEntry, settleOnce, hr, hrc, hsc, ReqInv]
    · simp only [reqStep, ht, if_false]
      exact ⟨h1, h2, h3⟩
  | writeErr m2 =>
    by_cases hw : s.writeDone = true
    · simp only [reqStep, hw, if_true]
      exact ⟨h1, h2, h3⟩
    · by_cases hp : s.inPending = true
      · obtain ⟨hr, hrc, hsc⟩ := h2 hp
        simp [reqStep, hw, hp, removeEntry, settleOnce, hr, hrc, hsc, ReqInv]
      · have hpf : s.inPending = false := by
          cases hb : s.inPending
          · rfl
          · exact absurd hb hp
        obtain ⟨hrc, hsc, hrne⟩ := h3 hpf
        obtain ⟨r0, hr0⟩ := Option.ne_none_iff_exists'.mp hrne
        simp [reqStep, hw, hpf, removeEntry, settleOnce, hr0, hrc, hsc, ReqInv]
  | procClose =>
    by_cases hp : s.inPending = true
    · obtain ⟨hr, hrc, hsc⟩ := h2 hp
      simp [reqStep, hp, removeEntry, settleOnce, hr, hrc, hsc, ReqInv]
    · simp only [reqStep, hp, if_false]
      exact ⟨h1, h2, h3⟩

/-- The lifecycle invariant holds after any schedule of triggers. -/
theorem reqInv_run (m : String) (sched : List ReqAction) : ReqInv (runReq m sched) := by
  have hgen : ∀ (l : List ReqAction) (s : ReqState), ReqInv s → ReqInv (l.foldl (reqStep m) s) := by
    intro l
    induction l with
    | nil => intro s h; exact h
    | cons a l2 ih =>
      intro s h
      exact ih (reqStep m s a) (reqInv_step m s a h)
  exact hgen sched (sendRequestState m) (reqInv_init m)

/-- Once removed from the pending map, an entry is never re-added. -/
theorem reqStep_pending_mono (m : String) (s : ReqState) (a : ReqAction)
    (h : s.inPending = false) : (reqStep m s a).inPending = false := by
  cases a with
  | response r => simp [reqStep, h]
  | timeoutFire =>
    by_cases ht : s.timerArmed = true
    · cases hr : s.result <;> simp [reqStep, ht, removeEntry, settleOnce, h, hr]
    · simp [reqStep, ht, h]
  | writeErr m2 =>
    by_cases hw : s.writeDone = true
    · simp [reqStep, hw, h]
    · cases hr : s.result <;> simp [reqStep, hw, removeEntry, settleOnce, h, hr]
  | procClose => simp [reqStep, h]

/-- Removal from the pending map is permanent across any schedule. -/
theorem foldl_pending_mono (m : String) (sched : List ReqAction) :
    ∀ s : ReqState, s.inPending = false →
      (sched.foldl (reqStep m) s).inPending = false := by
  induction sched with
  | nil => intro s h; exact h
  | cons a l ih =>
    intro s h
    exact ih (reqStep m s a) (reqStep_pending_mono m s a h)

/-- After a response trigger the entry is no longer pending. -/
theorem reqStep_response_pending (m : String) (s : ReqState) (r : Settle) :
    (reqStep m s (ReqAction.response r)).inPending = false := by
  by_cases hp : s.inPending = true
  · cases hr : s.result <;> simp [reqStep, hp, removeEntry, settleOnce, hr]
  · simp [reqStep, hp]

/-- After the close/error drain the entry is no longer pending. -/
theorem reqStep_procClose_pending (m : String) (s : ReqState) :
    (reqStep m s ReqAction.procClose).inPending = false := by
  by_cases hp : s.inPending = true
  · cases hr : s.result <;> simp [reqStep, hp, removeEntry, settleOnce, hr]
  · simp [reqStep, hp]

/-- A schedule containing a process close or a response leaves the entry
removed. -/
theorem trigger_clears_pending (m : String) (sched : List ReqAction) :
    ∀ s : ReqState,
      (ReqAction.procClose ∈ sched ∨ ∃ r, ReqAction.response r ∈ sched) →
      (sched.foldl (reqStep m) s).inPending = false := by
  induction sched with
  | nil =>
    intro s h
    rcases h with h | ⟨r, h⟩ <;> exact absurd h (List.not_mem_nil _)
  | cons a l ih =>
    intro s h
    rcases h with h | ⟨r, h⟩
    · rcases List.mem_cons.mp h with rfl | h2
      · exact foldl_pending_mono m l _ (reqStep_procClose_pending m s)
      · exact ih (reqStep m s a) (Or.inl h2)
    · rcases List.mem_cons.mp h with heq | h2
      · rw [← heq]
        exact foldl_pending_mono m l _ (reqStep_response_pending m s r)
      · exact ih (reqStep m s a) (Or.inr ⟨r, h2⟩)

/-- With the timer never armed, only a response, a write error or a
process close can settle the promise. -/
theorem noTimer_settle (m : String) (sched : List ReqAction) :
    ∀ s : ReqState, s.timerArmed = false → s.result = none →
      (sched.foldl (reqStep m) s).result ≠ none →
      ∃ a ∈ sched, nonTimerTrigger a = true := by
  induction sched with
  | nil =>
    intro s h1 h2 h3
    exact absurd h2 h3
  | cons a l ih =>
    intro s h1 h2 h3
    cases a with
    | timeoutFire =>
      have hstep : reqStep m s ReqAction.timeoutFire = s := by simp [reqStep, h1]
      simp only [List.foldl_cons, hstep] at h3
      obtain ⟨b, hb, hnt⟩ := ih s h1 h2 h3
      exact ⟨b, List.mem_cons_of_mem _ hb, hnt⟩
    | response r => exact ⟨_, List.mem_cons_self _ _, rfl⟩
    | writeErr m2 => exact ⟨_, List.mem_cons_self _ _, rfl⟩
    | procClose => exact ⟨_, List.mem_cons_self _ _, rfl⟩

/-- C7: `sendRequest` arms a 30-second timeout exactly when the method is
one of `initialize`, `session/new`, `session/cancel`, `session/set_mode`;
on expiry it removes the pending entry and rejects with an error message
that includes the method name (`"JSON-RPC request timed out: " + method`);
`session/prompt` (and any other non-control method) carries no timeout,
so its pending entry is settled only by a response, a stdin write error,
or process exit. -/
theorem sendRequest_timeout_spec :
    CONTROL_TIMEOUT_MS = 30000 ∧
    (∀ m : String, (sendRequestState m).timerArmed = true ↔
       (m = "initialize" ∨ m = "session/new" ∨ m = "session/cancel" ∨ m = "session/set_mode")) ∧
    (∀ m : String, requestTimeoutMs m = some 30000 ↔
       (m = "initialize" ∨ m = "session/new" ∨ m = "session/cancel" ∨ m = "session/set_mode")) ∧
    (∀ (m : String) (s : ReqState), s.timerArmed = true → s.inPending = true → s.result = none →
       (reqStep m s ReqAction.timeoutFire).inPending = false ∧
       (reqStep m s ReqAction.timeoutFire).result =
         some (Settle.rejectedWith ("JSON-RPC request timed out: " ++ m))) ∧
    (∀ (m : String) (sched : List ReqAction), m ∉ CONTROL_METHODS →
       (runReq m sched).result ≠ none → ∃ a ∈ sched, nonTimerTrigger a = true) := by
  refine ⟨rfl, ?_, ?_, ?_, ?_⟩
  · intro m
    simp [sendRequestState, requestTimeoutMs, CONTROL_METHODS, CONTROL_TIMEOUT_MS]
  · intro m
    by_cases hm : m ∈ CONTROL_METHODS
    · simp [requestTimeoutMs, hm, CONTROL_TIMEOUT_MS]
      simpa [CONTROL_METHODS] using hm
    · simp [requestTimeoutMs, hm, CONTROL_TIMEOUT_MS]
      simpa [CONTROL_METHODS] using hm
  · intro m s ht hp hr
    simp [reqStep, ht, hp, removeEntry, settleOnce, hr]
  · intro m sched hm
    have harm : (sendRequestState m).timerArmed = false := by
      simp [sendRequestState, requestTimeoutMs, hm]
    exact noTimer_settle m sched (sendRequestState m) harm rfl

/-- Witness for C7: firing the armed timer of a concrete `initialize`
request removes the entry and rejects with the method-naming message. -/
theorem sendRequest_timeout_spec_witness :
    (reqStep "initialize" (sendRequestState "initialize") ReqAction.timeoutFire).inPending
        = false ∧
    (reqStep "initialize" (sendRequestState "initialize") ReqAction.timeoutFire).result =
      some (Settle.rejectedWith "JSON-RPC request timed out: initialize") :=
  sendRequest_timeout_spec.2.2.2.1 "initialize" (sendRequestState "initialize")
    (by decide) rfl rfl

/-- C9: every entry placed in a session's pending map is removed at most
once, and exactly once as soon as any of the removing triggers (matching
response, control timeout, write error, process close) fires — in
particular whenever a response with its id or a process close occurs; and
its resolve/reject pair is settled at most once (and exactly once upon
removal) even when several of these triggers occur for the same id. -/
theorem pending_settled_once (method : String) (sched : List ReqAction) :
    (runReq method sched).removeCount ≤ 1 ∧
    (runReq method sched).settleCount ≤ 1 ∧
    ((runReq method sched).inPending = false →
       (runReq method sched).removeCount = 1 ∧ (runReq method sched).settleCount = 1) ∧
    ((ReqAction.procClose ∈ sched ∨ ∃ r, ReqAction.response r ∈ sched) →
       (runReq method sched).inPending = false) := by
  obtain ⟨h1, h2, h3⟩ := reqInv_run method sched
  refine ⟨?_, ?_, ?_, ?_⟩
  · by_cases hp : (runReq method sched).inPending = true
    · rw [(h2 hp).2.1]
      omega
    · have hpf : (runReq method sched).inPending = false := by
        cases hb : (runReq method sched).inPending
        · rfl
        · exact absurd hb hp
      rw [(h3 hpf).1]
  · by_cases hp : (runReq method sched).inPending = true
    · rw [(h2 hp).2.2]
      omega
    · have hpf : (runReq method sched).inPending = false := by
        cases hb : (runReq method sched).inPending
        · rfl
        · exact absurd hb hp
      rw [(h3 hpf).2.1]
  · intro hp
    exact ⟨(h3 hp).1, (h3 hp).2.1⟩
  · intro h
    exact trigger_clears_pending method sched (sendRequestState method) h

/-- Witness for C9: a concrete `session/prompt` entry drained by process
close is removed once and settled once. -/
theorem pending_settled_once_witness :
    (runReq "session/prompt" [ReqAction.procClose]).inPending = false ∧
    (runReq "session/prompt" [ReqAction.procClose]).removeCount = 1 ∧
    (runReq "session/prompt" [ReqAction.procClose]).settleCount = 1 := by
  have h := pending_settled_once "session/prompt" [ReqAction.procClose]
  have hp := h.2.2.2 (Or.inl (List.mem_cons_self _ _))
  exact ⟨hp, (h.2.2.1 hp).1, (h.2.2.1 hp).2⟩

/-- C2: if the `initialize` or `session/new` step of a fresh
initialization in `ensureSession` fails, the spawned child is sent
SIGTERM, the registry entry for that session key is removed, and the
error propagates to the caller; consequently a subsequent `ensureSession`
for the same key starts a fresh handshake (a new record with a strictly
larger identity) and never returns a handle built from the failed session
(the returned `runtimeSessionName` comes from the new handshake's
result). -/
theorem initFailure_teardown (cfg : ResolvedStandardAcpConfig) (input : EnsureInput)
    (e : String) (out : InitOutcome) (st st2 : RegState) (r : Except String AcpHandle)
    (hout : out = InitOutcome.initErr e ∨ out = InitOutcome.newErr e)
    (hfresh : regGet st.agents input.sessionKey = none)
    (hcall : ensureSession cfg input out st = (st2, r)) :
    r = Except.error e ∧
    regGet st2.agents input.sessionKey = none ∧
    st.nextPid ∈ st2.killed ∧
    (∀ (res : JSVal) (st3 : RegState) (r3 : Except String AcpHandle),
       ensureSession cfg input (InitOutcome.newOk res) st2 = (st3, r3) →
       (∃ h2 : AcpHandle, r3 = Except.ok h2 ∧
          h2.runtimeSessionName = asStr (jget res "sessionId") input.sessionKey) ∧
       (∃ a2 : AgentRec, regGet st3.agents input.sessionKey = some a2 ∧
          a2.pid = st2.nextPid ∧ st.nextPid < st2.nextPid)) := by
  rcases hout with rfl | rfl
  all_goals
    simp only [ensureSession, hfresh, initAgent] at hcall
    obtain ⟨rfl, rfl⟩ := Prod.mk.inj hcall.symm
    refine ⟨rfl, regGet_erase _ _, by simp [spawnAgent], ?_⟩
    intro res st3 r3 hcall2
    simp only [ensureSession, regGet_erase, initAgent] at hcall2
    obtain ⟨rfl, rfl⟩ := Prod.mk.inj hcall2.symm
    refine ⟨⟨_, rfl, rfl⟩, ⟨_, regGet_set _ _ _, rfl, by simp⟩⟩

/-- C5: when an agent session already exists for the key and its `cwd`
equals the effective cwd (`input.cwd ?? config.cwd`), `ensureSession`
returns a handle built from the existing session without spawning (the
state is returned unchanged, so repeated calls return handles with the
same `runtimeSessionName`); when the cwd differs, the existing child is
sent SIGTERM, removed from the registry, and a fresh initialization is
performed. -/
theorem ensureSession_reuse (cfg : ResolvedStandardAcpConfig) (input : EnsureInput)
    (st : RegState) (agent : AgentRec)
    (hlook : regGet st.agents input.sessionKey = some agent) :
    (agent.cwd = effectiveCwd cfg input →
       (∀ out, ensureSession cfg input out st =
          (st, Except.ok
            { sessionKey := input.sessionKey, backend := STANDARD_ACP_BACKEND_ID,
              runtimeSessionName := agent.sessionId.getD input.sessionKey,
              cwd := effectiveCwd cfg input })) ∧
       (∀ out out2,
          (ensureSession cfg input out2 (ensureSession cfg input out st).1).2 =
            (ensureSession cfg input out st).2)) ∧
    (agent.cwd ≠ effectiveCwd cfg input →
       ∀ out st2 r2, ensureSession cfg input out st = (st2, r2) →
         agent.pid ∈ st2.killed ∧
         (∀ e, (out = InitOutcome.initErr e ∨ out = InitOutcome.newErr e) →
            regGet st2.agents input.sessionKey = none ∧ r2 = Except.error e) ∧
         (∀ res, out = InitOutcome.newOk res →
            (∃ a2, regGet st2.agents input.sessionKey = some a2 ∧ a2.pid = st.nextPid ∧
               a2.sessionId = some (asStr (jget res "sessionId") input.sessionKey)) ∧
            r2 = Except.ok
              { sessionKey := input.sessionKey, backend := STANDARD_ACP_BACKEND_ID,
                runtimeSessionName := asStr (jget res "sessionId") input.sessionKey,
                cwd := effectiveCwd cfg input })) := by
  constructor
  · intro hcwd
    have hmain : ∀ out, ensureSession cfg input out st =
        (st, Except.ok
          { sessionKey := input.sessionKey, backend := STANDARD_ACP_BACKEND_ID,
            runtimeSessionName := agent.sessionId.getD input.sessionKey,
            cwd := effectiveCwd cfg input }) := by
      intro out
      simp [ensureSession, hlook, hcwd]
    refine ⟨hmain, ?_⟩
    intro out out2
    rw [hmain out, hmain out2]
  · intro hcwd out st2 r2 hcall
    simp only [ensureSession, hlook, if_pos hcwd] at hcall
    cases out with
    | initErr e =>
      simp only [initAgent] at hcall
      obtain ⟨rfl, rfl⟩ := Prod.mk.inj hcall.symm
      refine ⟨by simp, ?_, ?_⟩
      · intro e2 h
        rcases h with h | h
        · injection h with h
          subst h
          exact ⟨regGet_erase _ _, rfl⟩
        · exact absurd h (by simp)
      · intro res h
        exact absurd h (by simp)
    | newErr e =>
      simp only [initAgent] at hcall
      obtain ⟨rfl, rfl⟩ := Prod.mk.inj hcall.symm
      refine ⟨by simp, ?_, ?_⟩
      · intro e2 h
        rcases h with h | h
        · exact absurd h (by simp)
        · injection h with h
          subst h
          exact ⟨regGet_erase _ _, rfl⟩
      · intro res h
        exact absurd h (by simp)
    | newOk res =>
      simp only [initAgent] at hcall
      obtain ⟨rfl, rfl⟩ := Prod.mk.inj hcall.symm
      refine ⟨by simp, ?_, ?_⟩
      · intro e2 h
        rcases h with h | h <;> exact absurd h (by simp)
      · intro res2 h
        injection h with h
        subst h
        exact ⟨⟨_, regGet_set _ _ _, rfl, rfl⟩, rfl⟩

/-- C10: the child `close` / spawn-`error` handler rejects all of the
dead record's pending completions and clears its pending map regardless,
but deletes the registry entry for the session key only if the registry
still maps the key to that same record; in particular a replacement
session created under the same key after the predecessor's removal is
never removed from the registry by the dead predecessor's handler. -/
theorem closeHandler_guard (key : String) (agent : AgentRec) (st st2 : RegState)
    (agent2 : AgentRec) (rej : List Int)
    (hcall : onProcessClose key agent st = (st2, agent2, rej)) :
    rej = agent.pending ∧ agent2.pending = [] ∧
    (∀ a, regGet st.agents key = some a →
       (a.pid = agent.pid → regGet st2.agents key = none) ∧
       (a.pid ≠ agent.pid → st2.agents = st.agents)) ∧
    (regGet st.agents key = none → st2.agents = st.agents) ∧
    (∀ (cfg : ResolvedStandardAcpConfig) (input : EnsureInput) (res : JSVal)
       (st3 : RegState) (h3 : AcpHandle),
       input.sessionKey = key → agent.pid < st.nextPid →
       regGet st.agents key = none →
       ensureSession cfg input (InitOutcome.newOk res) st = (st3, Except.ok h3) →
       ∀ (st4 : RegState) (agent4 : AgentRec) (rej4 : List Int),
         onProcessClose key agent st3 = (st4, agent4, rej4) →
         regGet st4.agents key = regGet st3.agents key ∧
         (∃ a2, regGet st3.agents key = some a2 ∧ a2.pid ≠ agent.pid)) := by
  obtain ⟨h1, h2⟩ := Prod.mk.inj hcall.symm
  obtain ⟨h2a, h2b⟩ := Prod.mk.inj h2
  subst h1
  subst h2a
  subst h2b
  refine ⟨rfl, rfl, ?_, ?_, ?_⟩
  · intro a hlook
    constructor
    · intro hpid
      show regGet
        (match regGet st.agents key with
         | some a => if a.pid = agent.pid then regErase st.agents key else st.agents
         | none => st.agents) key = none
      rw [hlook]
      simp only [if_pos hpid]
      exact regGet_erase _ _
    · intro hpid
      show (match regGet st.agents key with
         | some a => if a.pid = agent.pid then regErase st.agents key else st.agents
         | none => st.agents) = st.agents
      rw [hlook]
      simp only [if_neg hpid]
  · intro hnone
    show (match regGet st.agents key with
       | some a => if a.pid = agent.pid then regErase st.agents key else st.agents
       | none => st.agents) = st.agents
    rw [hnone]
  · intro cfg input res st3 h3 hkey hlt hnone hens st4 agent4 rej4 hclose2
    subst hkey
    simp only [ensureSession, hnone, initAgent] at hens
    obtain ⟨hst3, _⟩ := Prod.mk.inj hens
    have hget3 : regGet st3.agents input.sessionKey =
        some { spawnAgent cfg st.nextPid with
               sessionId := some (asStr (jget res "sessionId") input.sessionKey),
               cwd := effectiveCwd cfg input } := by
      rw [← hst3]
      exact regGet_set _ _ _
    have hpidne :
        ({ spawnAgent cfg st.nextPid with
           sessionId := some (asStr (jget res "sessionId") input.sessionKey),
           cwd := effectiveCwd cfg input } : AgentRec).pid ≠ agent.pid := by
      simp only [spawnAgent]
      omega
    obtain ⟨h41, h42⟩ := Prod.mk.inj hclose2.symm
    subst h41
    have hagents : (match regGet st3.agents input.sessionKey with
         | some a => if a.pid = agent.pid then regErase st3.agents input.sessionKey
                     else st3.agents
         | none => st3.agents) = st3.agents := by
      rw [hget3]
      exact if_neg hpidne
    constructor
    · show regGet
        (match regGet st3.agents input.sessionKey with
         | some a => if a.pid = agent.pid then regErase st3.agents input.sessionKey
                     else st3.agents
         | none => st3.agents) input.sessionKey = regGet st3.agents input.sessionKey
      rw [hagents]
    · exact ⟨_, hget3, hpidne⟩

/-- Counterexample to C8 as stated: with `config.cwd = "/cfg"` and
`input.cwd = "/turn"`, the fresh initialization records
`cwd = "/turn"` (the effective cwd) on the agent session, but the child
process was spawned with working directory `"/cfg"` (`spawnAgent` passes
`cwd: this.config.cwd`), so the spawn cwd is not the effective cwd and
the recorded cwd differs from the spawn cwd. -/
theorem spawnCwd_counterexample :
    ∃ a : AgentRec,
      regGet (ensureSession cfgA inputA (InitOutcome.newOk resA) regEmpty).1.agents "k"
          = some a ∧
      a.cwd = effectiveCwd cfgA inputA ∧
      a.spawnedCwd ≠ effectiveCwd cfgA inputA ∧
      a.cwd ≠ a.spawnedCwd := by
  refine ⟨{ pid := 0, spawnedCwd := "/cfg", cwd := "/turn", sessionId := some "sid-1",
            pending := [] }, by rfl, rfl, by decide, by decide⟩

/-- C8 (amended): for every fresh initialization performed by
`ensureSession` (key absent, or present with a different cwd), the child
process is spawned with working directory `config.cwd`, while the
effective cwd (`input.cwd ?? config.cwd`) is recorded as the
`AgentSession`'s `cwd` (and sent to the agent in `session/new`). -/
theorem spawnCwd_amended (cfg : ResolvedStandardAcpConfig) (input : EnsureInput)
    (out : InitOutcome) (res : JSVal) (st st2 : RegState) (r : Except String AcpHandle)
    (hout : out = InitOutcome.newOk res)
    (hfresh : regGet st.agents input.sessionKey = none ∨
       (∃ a0, regGet st.agents input.sessionKey = some a0 ∧
          a0.cwd ≠ effectiveCwd cfg input))
    (hcall : ensureSession cfg input out st = (st2, r)) :
    ∃ a : AgentRec, regGet st2.agents input.sessionKey = some a ∧
      a.spawnedCwd = cfg.cwd ∧ a.cwd = effectiveCwd cfg input := by
  subst hout
  rcases hfresh with hnone | ⟨a0, hsome, hne⟩
  · simp only [ensureSession, hnone, initAgent] at hcall
    obtain ⟨rfl, rfl⟩ := Prod.mk.inj hcall.symm
    exact ⟨_, regGet_set _ _ _, rfl, rfl⟩
  · simp only [ensureSession, hsome, if_pos hne, initAgent] at hcall
    obtain ⟨rfl, rfl⟩ := Prod.mk.inj hcall.symm
    exact ⟨_, regGet_set _ _ _, rfl, rfl⟩

/-- Witness for the amended C8 at the concrete counterexample input. -/
theorem spawnCwd_amended_witness :
    ∃ a : AgentRec,
      regGet (ensureSession cfgA inputA (InitOutcome.newOk resA) regEmpty).1.agents "k"
          = some a ∧
      a.spawnedCwd = cfgA.cwd ∧ a.cwd = effectiveCwd cfgA inputA :=
  spawnCwd_amended cfgA inputA (InitOutcome.newOk resA) resA regEmpty
    (ensureSession cfgA inputA (InitOutcome.newOk resA) regEmpty).1
    (ensureSession cfgA inputA (InitOutcome.newOk resA) regEmpty).2
    rfl (Or.inl rfl) rfl

/-- Witness for C2: a concrete failed `initialize` leaves an empty
registry with the child killed, and the retry initializes a fresh
record. -/
theorem initFailure_teardown_witness :
    regGet (RegState.mk [] 1 [0]).agents "k" = none ∧
    (0 : Nat) ∈ (RegState.mk [] 1 [0]).killed ∧
    (∃ a2 : AgentRec,
       regGet (ensureSession cfgA inputA (InitOutcome.newOk resA)
         (RegState.mk [] 1 [0])).1.agents "k" = some a2 ∧
       a2.pid = 1 ∧ 0 < 1) := by
  have h := initFailure_teardown cfgA inputA "boom" (InitOutcome.initErr "boom") regEmpty
    (RegState.mk [] 1 [0]) (Except.error "boom") (Or.inl rfl) rfl rfl
  exact ⟨h.2.1, h.2.2.1, (h.2.2.2 resA _ _ rfl).2⟩

/-- Witness for C5: a concrete matching-cwd `ensureSession` returns the
cached session's handle and leaves the state unchanged. -/
theorem ensureSession_reuse_witness :
    ensureSession cfgA inputA (InitOutcome.newOk resA)
      { agents := [("k", { pid := 3, spawnedCwd := "/cfg", cwd := "/turn",
                           sessionId := some "sid-0", pending := [] })],
        nextPid := 5, killed := [] } =
      ({ agents := [("k", { pid := 3, spawnedCwd := "/cfg", cwd := "/turn",
                            sessionId := some "sid-0", pending := [] })],
         nextPid := 5, killed := [] },
       Except.ok { sessionKey := "k", backend := STANDARD_ACP_BACKEND_ID,
                   runtimeSessionName := "sid-0", cwd := "/turn" }) :=
  ((ensureSession_reuse cfgA inputA
      { agents := [("k", { pid := 3, spawnedCwd := "/cfg", cwd := "/turn",
                           sessionId := some "sid-0", pending := [] })],
        nextPid := 5, killed := [] }
      { pid := 3, spawnedCwd := "/cfg", cwd := "/turn", sessionId := some "sid-0",
        pending := [] }
      rfl).1 rfl).1 (InitOutcome.newOk resA)

/-- Witness for C10: the dead record (identity 0) firing its close
handler does not remove the replacement (identity 1) registered under the
same key. -/
theorem closeHandler_guard_witness :
    (onProcessClose "k"
       { pid := 0, spawnedCwd := "/cfg", cwd := "/cfg", sessionId := some "s1",
         pending := [5] }
       { agents := [("k", { pid := 1, spawnedCwd := "/cfg", cwd := "/cfg",
                            sessionId := some "s2", pending := [] })],
         nextPid := 2, killed := [0] }).1.agents =
      [("k", { pid := 1, spawnedCwd := "/cfg", cwd := "/cfg", sessionId := some "s2",
               pending := [] })] := by
  have h := closeHandler_guard "k"
    { pid := 0, spawnedCwd := "/cfg", cwd := "/cfg", sessionId := some "s1", pending := [5] }
    { agents := [("k", { pid := 1, spawnedCwd := "/cfg", cwd := "/cfg",
                         sessionId := some "s2", pending := [] })],
      nextPid := 2, killed := [0] }
    _ _ _ rfl
  exact (h.2.2.1 _ rfl).2 (by decide)
